import Mathlib

/-!
Shallow embedding of the match-checking driver of
`src/librustc_mir/hair/pattern/check_match.rs`.

The file models the driver's observable behaviour: how the pattern matrix is
grown across the arms of a `match`, which lint is selected for an unreachable
arm, the zero-arm (empty match) exhaustiveness rule, the catch-all hinting,
the witness renderer, the irrefutability check, and the syntactic legality
checks (move/by-ref conflicts and guard mutation).

The usefulness engine `is_useful` lives in a sibling module (`_match.rs`)
that is outside the code under study; the driver only consumes its verdicts.
It is therefore embedded as an oracle parameter:
  - `LeaveOutWitness` calls are a function `List LPat → LPat → Bool`
    (`true` = `Useful`, `false` = `NotUseful`; the driver treats a
    `UsefulWithWitness` answer in this mode as an internal bug);
  - `ConstructWitness` calls are a function
    `List LPat → LPat → Option (List LPat)` (`none` = `NotUseful`,
    `some ws` = `UsefulWithWitness ws`; a bare `Useful` answer in this mode
    is an internal bug, asserted impossible by the driver).
Lowered patterns (`Pattern<'tcx>`) are likewise opaque to the driver except
for their type, span and whether they are the wildcard, which is what `LPat`
records.
-/

namespace CheckMatch

/-- Kind of a lowered pattern as far as the driver inspects it: the wildcard
pattern built by `check_not_useful`, or any other lowered pattern (opaque). -/
inductive LKind where
  | wild
  | con (k : Nat)
deriving DecidableEq

/-- A lowered (`hair`) pattern as consumed by the driver: a type handle, a
source span and its (otherwise opaque) kind. Spans and types are drawn from
`Nat`. -/
structure LPat where
  ty : Nat
  span : Nat
  kind : LKind
deriving DecidableEq

/-- The dummy span used for synthesized patterns (`DUMMY_SP`). -/
def DUMMY_SP : Nat := 0

/-- The wildcard pattern `Pattern { ty, span: DUMMY_SP, kind: Wild }` that
`check_not_useful` synthesizes as the candidate row. -/
def wildPattern (ty : Nat) : LPat := ⟨ty, DUMMY_SP, .wild⟩

/-- Rust's `Vec::join` on strings: elements interleaved with a separator. -/
def join_strings (sep : String) : List String → String
  | [] => ""
  | [s] => s
  | s :: rest => s ++ sep ++ join_strings sep rest

/-- `joined_uncovered_patterns` from the source: renders the list of witness
strings. One witness is backquoted; two or three are comma/`and`-joined; four
or more show the first three followed by the count of the rest. The empty
list is a compiler bug (`bug!`) in the source; it is mapped to a marker
string here. -/
def joined_uncovered_patterns (witnesses : List String) : String :=
  match witnesses with
  | [] => "INTERNAL BUG: empty witness list"
  | [w] => "`" ++ w ++ "`"
  | _ =>
    if witnesses.length ≤ 3 then
      "`" ++ join_strings "`, `" witnesses.dropLast ++ "` and `" ++
        witnesses.getLastD "" ++ "`"
    else
      "`" ++ join_strings "`, `" (witnesses.take 3) ++ "` and " ++
        toString (witnesses.length - 3) ++ " more"

/-- A surface (HIR) pattern, as far as the driver inspects it: `PatKind`
restricted to the observations made by `pat_is_catchall` and by
`check_irrefutable`'s label selection. `path qselfNone segments hasArgs`
stands for `PatKind::Path` (with whether the `QPath::Resolved` qself is
`None`, the segment count, and whether the last segment has arguments);
`lit` stands for every other pattern kind. -/
inductive HirPat where
  | wild
  | binding (sub : Option HirPat)
  | ref (sub : HirPat)
  | tuple (elems : List HirPat)
  | path (qselfNone : Bool) (segments : Nat) (hasArgs : Bool)
  | lit

mutual

/-- `pat_is_catchall` from the source: a binding with no subpattern, a
binding over a catchall, a reference to a catchall, or a tuple of catchalls.
Every other kind — including a plain wildcard `_` — is not a catchall. -/
def pat_is_catchall : HirPat → Bool
  | .binding none => true
  | .binding (some s) => pat_is_catchall s
  | .ref s => pat_is_catchall s
  | .tuple v => pats_all_catchall v
  | _ => false

/-- Conjunction of `pat_is_catchall` over a tuple's elements. -/
def pats_all_catchall : List HirPat → Bool
  | [] => true
  | p :: ps => pat_is_catchall p && pats_all_catchall ps

end

mutual

/-- Modelled from the spec: the catch-all notion as the claim words it —
"a wildcard, a wildcard binding, a reference to a catch-all, or a tuple of
only catch-alls". Stated only to be compared against `pat_is_catchall`. -/
def catchall_per_spec : HirPat → Bool
  | .wild => true
  | .binding none => true
  | .ref s => catchall_per_spec s
  | .tuple v => catchall_list_per_spec v
  | _ => false

/-- Conjunction of `catchall_per_spec` over a tuple's elements. -/
def catchall_list_per_spec : List HirPat → Bool
  | [] => true
  | p :: ps => catchall_per_spec p && catchall_list_per_spec ps

end

/-- One entry of an inlined arm: the lowered pattern paired with the HIR
pattern it came from (`(pattern, &**pat)` in the source). -/
structure ArmPat where
  pat : LPat
  hirPat : HirPat

/-- One inlined arm: its (possibly several, pre-expanded) patterns and
whether the arm carries a guard. -/
structure Arm where
  pats : List ArmPat
  hasGuard : Bool

/-- `hir::MatchSource`: the syntactic origin of a lowered `match`. -/
inductive MatchSource where
  | normal
  | ifDesugar
  | ifLetDesugar
  | whileDesugar
  | whileLetDesugar
  | forLoopDesugar
  | tryDesugar
  | awaitDesugar
deriving DecidableEq

/-- A diagnostic emitted by `check_arms` for a not-useful arm pattern.
`unreachable sp lbl` is the `unreachable pattern` lint at span `sp`, with
`lbl` the span of an optional `matches any value` label pointing at an
earlier catchall pattern. `internalBug` marks the `bug!` branches. -/
inductive ArmDiag where
  | unreachable (span : Nat) (catchallLabel : Option Nat)
  | irrefutableIfLet (span : Nat)
  | irrefutableWhileLet (span : Nat)
  | internalBug
deriving DecidableEq

/-- Lint message text carried by an `ArmDiag`. -/
def ArmDiag.msg : ArmDiag → String
  | .unreachable _ _ => "unreachable pattern"
  | .irrefutableIfLet _ => "irrefutable if-let pattern"
  | .irrefutableWhileLet _ => "irrefutable while-let pattern"
  | .internalBug => "internal compiler error"

/-- Diagnostic selection for a `NotUseful` verdict in `check_arms`,
keyed by the match's `MatchSource` and — for `while let` — the arm index.
`none` means no diagnostic is emitted (`await`/`try` desugarings). -/
def unreachableDiag (source : MatchSource) (armIndex : Nat)
    (catchall : Option Nat) (sp : Nat) : Option ArmDiag :=
  match source with
  | .ifDesugar => some .internalBug
  | .whileDesugar => some .internalBug
  | .ifLetDesugar => some (.irrefutableIfLet sp)
  | .whileLetDesugar =>
    match armIndex with
    | 0 => some (.unreachable sp none)
    | 1 => some (.irrefutableWhileLet sp)
    | _ => some .internalBug
  | .forLoopDesugar => some (.unreachable sp catchall)
  | .normal => some (.unreachable sp catchall)
  | .awaitDesugar => none
  | .tryDesugar => none

/-- The mutable state threaded through `check_arms`' loop: the growing
matrix `seen` (rows are single lowered patterns), the recorded catchall
span, the diagnostics emitted so far, and — for auditing which usefulness
queries were made — the list of `is_useful` calls as
(matrix passed, candidate pattern) pairs, in call order. -/
structure ArmsState where
  seen : List LPat
  catchall : Option Nat
  diags : List ArmDiag
  checks : List (List LPat × LPat)

/-- The state `check_arms` starts from: empty matrix, no catchall seen,
nothing emitted. -/
def initArmsState : ArmsState := ⟨[], none, [], []⟩

/-- The body of `check_arms`' inner loop for one pattern of one arm:
query `is_useful` (the `useful` oracle, `LeaveOutWitness` mode) on the
accumulated matrix, emit the source-selected diagnostic on `NotUseful`,
and — only when the arm has no guard — push the pattern onto the matrix
and record it as the catchall if it is the first one. -/
def processPat (useful : List LPat → LPat → Bool) (source : MatchSource)
    (armIndex : Nat) (hasGuard : Bool) (st : ArmsState) (ap : ArmPat) :
    ArmsState :=
  let diags :=
    if useful st.seen ap.pat then st.diags
    else st.diags ++ (unreachableDiag source armIndex st.catchall ap.pat.span).toList
  let seen := if hasGuard then st.seen else st.seen ++ [ap.pat]
  let catchall :=
    if hasGuard then st.catchall
    else if st.catchall.isNone && pat_is_catchall ap.hirPat then some ap.pat.span
    else st.catchall
  ⟨seen, catchall, diags, st.checks ++ [(st.seen, ap.pat)]⟩

/-- The outer loop of `check_arms` (arm iteration with `enumerate`),
threading the arm index explicitly. -/
def check_arms_aux (useful : List LPat → LPat → Bool) (source : MatchSource)
    (armIndex : Nat) (st : ArmsState) : List Arm → ArmsState
  | [] => st
  | a :: rest =>
    check_arms_aux useful source (armIndex + 1)
      (a.pats.foldl (processPat useful source armIndex a.hasGuard) st) rest

/-- `check_arms` from the source, with `is_useful` (`LeaveOutWitness` mode)
abstracted as the `useful` oracle. -/
def check_arms (useful : List LPat → LPat → Bool) (source : MatchSource)
    (arms : List Arm) : ArmsState :=
  check_arms_aux useful source 0 initArmsState arms

/-- The flattening of the arm iteration: one entry per (arm, pattern) pair
in processing order, with the arm's index and guard flag attached. -/
structure Entry where
  armIndex : Nat
  hasGuard : Bool
  ap : ArmPat

/-- Entries of the arms in processing order, starting at arm index `i`. -/
def armEntriesFrom (i : Nat) : List Arm → List Entry
  | [] => []
  | a :: rest =>
    a.pats.map (fun p => ⟨i, a.hasGuard, p⟩) ++ armEntriesFrom (i + 1) rest

/-- Entries of the arms in processing order. -/
def armEntries (arms : List Arm) : List Entry := armEntriesFrom 0 arms

/-- Lowered patterns of the guard-free entries, in order: the rows that
`check_arms` pushes onto `seen`. -/
def guardFreeLow (es : List Entry) : List LPat :=
  (es.filter (fun e => !e.hasGuard)).map (fun e => e.ap.pat)

/-- The matrix built by `check_match` for the final exhaustiveness check
(source lines 255-260): guard-free arms, flattened to their patterns. -/
def matchMatrix (inlinedArms : List Arm) : List LPat :=
  ((inlinedArms.filter (fun a => !a.hasGuard)).flatMap (fun a => a.pats)).map
    (fun p => p.pat)

/-- The span of the first guard-free entry whose HIR pattern satisfies
`pat_is_catchall`, if any. -/
def firstCatchallSpan : List Entry → Option Nat
  | [] => none
  | e :: es =>
    if !e.hasGuard && pat_is_catchall e.ap.hirPat then some e.ap.pat.span
    else firstCatchallSpan es

/-- Reference description of the usefulness queries issued while processing
a list of entries, starting from matrix `seen`: each entry is queried
against the matrix of guard-free patterns processed before it. -/
def checksFrom (seen : List LPat) : List Entry → List (List LPat × LPat)
  | [] => []
  | e :: es =>
    (seen, e.ap.pat) ::
      checksFrom (if e.hasGuard then seen else seen ++ [e.ap.pat]) es

/-- Single-entry processing step, the flattened form of `check_arms`' loop
body. -/
def processEntry (useful : List LPat → LPat → Bool) (source : MatchSource)
    (st : ArmsState) (e : Entry) : ArmsState :=
  processPat useful source e.armIndex e.hasGuard st e.ap

/-- An enum variant as the driver sees it: its identifier text and the span
of its definition (`variant.ident`). -/
structure VariantDef where
  name : String
  span : Nat
deriving DecidableEq

/-- The scrutinee type's `sty` as inspected by the zero-arm branch of
`check_match`: the never type, an ADT (with its variant list, whether its
variant list is `#[non_exhaustive]`, and whether its `DefId` is local), or
any other type. -/
inductive TySty where
  | never
  | adt (variants : List VariantDef) (nonExhaustiveAttr : Bool) (isLocal : Bool)
  | other
deriving DecidableEq

/-- The `missing_variants` vector collected by the zero-arm branch: the
variant list, kept only when the `exhaustive_patterns` feature is off and
the type is an enum with fewer than 4 but at least one variant. -/
def missingVariants (exhaustivePatterns : Bool) (sty : TySty) : List VariantDef :=
  if exhaustivePatterns then []
  else
    match sty with
    | .adt variants _ _ =>
      if variants.length < 4 ∧ variants ≠ [] then variants else []
    | _ => []

/-- `scrutinee_is_uninhabited` from the zero-arm branch: under
`exhaustive_patterns`, the `is_ty_uninhabited_from` query (an external
oracle, passed as `isUninhabitedFrom`); otherwise the never type, or an
enum with no variants that is not a non-local `#[non_exhaustive]` enum. -/
def scrutineeIsUninhabited (exhaustivePatterns isUninhabitedFrom : Bool)
    (sty : TySty) : Bool :=
  if exhaustivePatterns then isUninhabitedFrom
  else
    match sty with
    | .never => true
    | .adt variants nonExhaustiveAttr isLocal =>
      !(nonExhaustiveAttr && !isLocal) && variants.isEmpty
    | .other => false

/-- The message variants of the zero-arm non-exhaustiveness error E0004:
`type ... is non-empty`, `pattern ... of type ... is not handled` (one
missing variant), or `multiple patterns of type ... are not handled`. -/
inductive EmptyMsg where
  | typeNonEmpty
  | patternNotHandled (name : String)
  | multipleNotHandled
deriving DecidableEq

/-- The zero-arm non-exhaustiveness diagnostic: its message and the spans of
the `variant not covered` labels pointing at the missing variants. -/
structure EmptyMatchDiag where
  msg : EmptyMsg
  variantLabels : List Nat
deriving DecidableEq

/-- The zero-arm branch of `check_match` (source lines 202-253): when the
match has no arms, emit the E0004 diagnostic unless the scrutinee type is
uninhabited. -/
def check_empty_match (exhaustivePatterns isUninhabitedFrom : Bool)
    (sty : TySty) : Option EmptyMatchDiag :=
  let missing := missingVariants exhaustivePatterns sty
  if scrutineeIsUninhabited exhaustivePatterns isUninhabitedFrom sty then none
  else
    some ⟨(match missing with
           | [] => .typeNonEmpty
           | [v] => .patternNotHandled v.name
           | _ => .multipleNotHandled),
          missing.map (fun v => v.span)⟩

/-- `check_not_useful` from the source, with `is_useful`
(`ConstructWitness` mode) abstracted as the oracle `u`: build the wildcard
candidate of the given type and return `Ok` (here `none`) on `NotUseful`,
or the witness list together with the wildcard pattern on
`UsefulWithWitness`. -/
def check_not_useful (u : List LPat → LPat → Option (List LPat)) (ty : Nat)
    (matrix : List LPat) : Option (List LPat × LPat) :=
  (u matrix (wildPattern ty)).map (fun ws => (ws, wildPattern ty))

/-- Whether a HIR pattern is syntactically a bare single-segment resolved
path with no arguments — the condition selecting the
"interpreted as ... pattern, not new variable" label in
`check_irrefutable`. -/
def isBareSingleSegmentPath : HirPat → Bool
  | .path qselfNone segments hasArgs => qselfNone && segments == 1 && !hasArgs
  | _ => false

/-- The span label carried by the refutable-pattern error E0005: either the
"interpreted as ... pattern, not new variable" presentation, or the plain
"pattern ... not covered" label carrying the first witness. -/
inductive IrrefutLabel where
  | interpretedAsVariantPattern
  | patternNotCovered (w : LPat)
deriving DecidableEq

/-- `check_irrefutable` from the source: a one-row matrix holding the
lowered pattern, a wildcard candidate; a `NotUseful` verdict means the
pattern is irrefutable (no error), otherwise the E0005 error is emitted
with its label selected by the pattern's syntax. The first witness indexes
`witness[0]` in the source; an empty witness list there would be a panic,
modelled by defaulting to the wildcard. -/
def check_irrefutable (u : List LPat → LPat → Option (List LPat))
    (pat : HirPat) (lowered : LPat) : Option IrrefutLabel :=
  match check_not_useful u lowered.ty [lowered] with
  | none => none
  | some (ws, wild) =>
    some (if isBareSingleSegmentPath pat then .interpretedAsVariantPattern
          else .patternNotCovered (ws.headD wild))

/-- The non-exhaustive-match diagnostic E0004 as far as the witness list is
concerned. -/
structure ExhaustDiag where
  witnesses : List LPat
deriving DecidableEq

/-- `check_exhaustive` from the source: on a `UsefulWithWitness` verdict for
the wildcard candidate, report the witnesses — substituting the wildcard
pattern itself when the returned witness list is empty. -/
def check_exhaustive (u : List LPat → LPat → Option (List LPat))
    (scrutTy : Nat) (matrix : List LPat) : Option ExhaustDiag :=
  match check_not_useful u scrutTy matrix with
  | none => none
  | some (pats, wild) =>
    some ⟨if pats.isEmpty then [wild] else pats⟩

/-- A concrete `ConstructWitness`-mode oracle answering
`UsefulWithWitness([])` on every query; used to instantiate theorems. -/
def oracleSomeNil : List LPat → LPat → Option (List LPat) := fun _ _ => some []

/-- A concrete bare single-segment path pattern. -/
def c6pat : HirPat := .path true 1 false

/-- A concrete lowered pattern. -/
def c6lowered : LPat := ⟨3, 9, .con 0⟩

/-- A binding mode recorded in the typeck tables for a binding pattern:
`BindByValue` or `BindByReference` (mutability is irrelevant to the checks
modelled here). -/
inductive BindMode where
  | byValue
  | byRef
deriving DecidableEq

/-- A typed HIR pattern as inspected by `check_legality_of_move_bindings`:
binding nodes carry their binding mode, span, whether the type of the
binding node is `Copy` (the `is_copy_modulo_regions` query), and an
optional subpattern; every non-binding node is `wild` (no children) or
`node` (any constructor with children). -/
inductive TPat where
  | binding (bm : BindMode) (span : Nat) (isCopy : Bool) (sub : Option TPat)
  | wild
  | node (children : List TPat)

/-- The data `check_legality_of_move_bindings` reads off one binding. -/
structure BindingInfo where
  bm : BindMode
  span : Nat
  isCopy : Bool
  sub : Option TPat

mutual

/-- All bindings of a pattern in visit order (`each_binding` / `walk` both
traverse pre-order and enter binding subpatterns). -/
def tpatBindings : TPat → List BindingInfo
  | .binding bm sp c sub => ⟨bm, sp, c, sub⟩ :: tpatBindingsOpt sub
  | .wild => []
  | .node cs => tpatBindingsList cs

/-- Bindings of an optional subpattern. -/
def tpatBindingsOpt : Option TPat → List BindingInfo
  | none => []
  | some p => tpatBindings p

/-- Bindings of a list of child patterns, in order. -/
def tpatBindingsList : List TPat → List BindingInfo
  | [] => []
  | p :: ps => tpatBindings p ++ tpatBindingsList ps

end

/-- `Pat::contains_bindings`: whether the pattern has any binding. -/
def contains_bindings (p : TPat) : Bool := !(tpatBindings p).isEmpty

/-- Whether a binding's subpattern exists and contains bindings — the
`sub.map_or(false, |p| p.contains_bindings())` test of `check_move`. -/
def subContainsBindings : Option TPat → Bool
  | none => false
  | some p => contains_bindings p

/-- The `by_ref_span` accumulator: each by-reference binding overwrites it,
so it ends up holding the span of the last by-reference binding in
traversal order (or `none`). -/
def by_ref_span (pats : List TPat) : Option Nat :=
  (pats.flatMap tpatBindings).foldl
    (fun acc b =>
      match b.bm with
      | .byRef => some b.span
      | .byValue => acc) none

/-- Diagnostics of `check_legality_of_move_bindings`: E0007 (binds by-move
with sub-bindings), E0008 (binds by-move into a pattern guard), and E0009
(binds by-move and by-ref in the same pattern; carries the by-move spans of
its `MultiSpan` plus the optional by-ref label span). -/
inductive MoveDiag where
  | e0007 (span : Nat)
  | e0008 (span : Nat)
  | e0009 (moveSpans : List Nat) (byRefLabel : Option Nat)
deriving DecidableEq

/-- One step of the by-value walk of `check_legality_of_move_bindings`:
for a by-value binding of a non-`Copy` type, `check_move` either emits
E0007 (subpattern with bindings), emits E0008 (guard present and the
`bind_by_move_pattern_guards` feature off), or pushes the span onto
`span_vec` when a by-ref binding was seen. The state is
(diagnostics so far, `span_vec`). -/
def moveStep (feature hasGuard : Bool) (refSpan : Option Nat)
    (st : List MoveDiag × List Nat) (b : BindingInfo) :
    List MoveDiag × List Nat :=
  match b.bm with
  | .byRef => st
  | .byValue =>
    if b.isCopy then st
    else if subContainsBindings b.sub then (st.1 ++ [.e0007 b.span], st.2)
    else if hasGuard then
      if !feature then (st.1 ++ [.e0008 b.span], st.2) else st
    else if refSpan.isSome then (st.1, st.2 ++ [b.span])
    else st

/-- `check_legality_of_move_bindings` from the source: collect the (last)
by-ref span, run `check_move` over every binding, and finally emit E0009
when `span_vec` is non-empty. -/
def check_legality_of_move_bindings (feature hasGuard : Bool)
    (pats : List TPat) : List MoveDiag :=
  let refSpan := by_ref_span pats
  let st := (pats.flatMap tpatBindings).foldl
    (moveStep feature hasGuard refSpan) ([], [])
  st.1 ++ (if st.2.isEmpty then [] else [.e0009 st.2 refSpan])

/-- Boolean test for `BindByValue`. -/
def isByValue : BindMode → Bool
  | .byValue => true
  | .byRef => false

/-- The spans that `check_move` pushes onto `span_vec` (given a by-ref
binding was seen and no guard): by-value bindings of non-`Copy` type whose
subpattern has no bindings, in traversal order. -/
def offendingSpans (bs : List BindingInfo) : List Nat :=
  (bs.filter
    (fun b => isByValue b.bm && !b.isCopy && !subContainsBindings b.sub)).map
    (fun b => b.span)

/-- The E0007/E0008 diagnostics produced by the by-value walk, in order. -/
def moveDiagsSpec (feature hasGuard : Bool) (bs : List BindingInfo) :
    List MoveDiag :=
  bs.flatMap (fun b =>
    match b.bm with
    | .byRef => []
    | .byValue =>
      if b.isCopy then []
      else if subContainsBindings b.sub then [.e0007 b.span]
      else if hasGuard then (if !feature then [.e0008 b.span] else [])
      else [])

/-- A pattern group with by-ref bindings at spans 1 and 2 and a by-move
(non-`Copy`) binding at span 3. -/
def c7pat : TPat :=
  .node [.binding .byRef 1 true none, .binding .byRef 2 true none,
         .binding .byValue 3 false none]

/-- `ty::BorrowKind` as seen by `MutationChecker::borrow`. -/
inductive BorrowKind where
  | mutBorrow
  | immBorrow
  | uniqueImmBorrow
deriving DecidableEq

/-- `MutateMode` as seen by `MutationChecker::mutate`. -/
inductive MutateMode where
  | justWrite
  | writeAndRead
  | init
deriving DecidableEq

/-- The use-effects the expression-use visitor reports to the
`MutationChecker` delegate while walking a guard expression. `consume` and
`declWithoutInit` stand for the delegate methods with empty bodies. -/
inductive GuardEffect where
  | borrow (span : Nat) (kind : BorrowKind)
  | mutate (span : Nat) (mode : MutateMode)
  | consume (span : Nat)
  | declWithoutInit (span : Nat)
deriving DecidableEq

/-- Diagnostics of the guard-mutation check: E0301 (cannot mutably borrow
in a pattern guard) and E0302 (cannot assign in a pattern guard). -/
inductive GuardDiag where
  | e0301 (span : Nat)
  | e0302 (span : Nat)
deriving DecidableEq

/-- The `MutationChecker` delegate's reaction to one use-effect: a mutable
borrow yields E0301; a `JustWrite` or `WriteAndRead` mutation yields E0302;
immutable and unique-immutable borrows, `Init` mutations and the remaining
callbacks yield nothing. -/
def mutation_effect_diag : GuardEffect → Option GuardDiag
  | .borrow sp .mutBorrow => some (.e0301 sp)
  | .borrow _ .immBorrow => none
  | .borrow _ .uniqueImmBorrow => none
  | .mutate sp .justWrite => some (.e0302 sp)
  | .mutate sp .writeAndRead => some (.e0302 sp)
  | .mutate _ .init => none
  | .consume _ => none
  | .declWithoutInit _ => none

/-- `check_for_mutation_in_guard`: the diagnostics emitted while the
expression-use visitor reports the guard's use-effects in order. -/
def check_for_mutation_in_guard (effects : List GuardEffect) : List GuardDiag :=
  effects.filterMap mutation_effect_diag

/-- The guard handling of `check_match`'s arm loop (source lines 153-157):
when the arm has a guard, run the mutation check only if the
`bind_by_move_pattern_guards` feature is disabled. -/
def guard_mutation_diags (feature : Bool)
    (guardEffects : Option (List GuardEffect)) : List GuardDiag :=
  match guardEffects with
  | none => []
  | some effects =>
    if !feature then check_for_mutation_in_guard effects else []

/-- `SignalledError` as returned by the per-body `check_match` entry. -/
inductive SignalledError where
  | noErrorsSeen
  | sawSomeError
deriving DecidableEq

/-- One arm of a visited match, as far as the per-body bookkeeping looks at
it: whether lowering one of its patterns records errors, and whether it has
a guard. -/
structure MArm where
  lowerFails : Bool
  hasGuard : Bool
deriving DecidableEq

/-- One match expression visited in a body. -/
structure MatchExpr where
  arms : List MArm
deriving DecidableEq

/-- The effect of one arm on the visitor's `signalled_error` field: any
guard sets it to `SawSomeError`. -/
def arm_signal (s : SignalledError) (a : MArm) : SignalledError :=
  if a.hasGuard then .sawSomeError else s

/-- The effect of one visited match on `signalled_error`. -/
def match_signal (s : SignalledError) (m : MatchExpr) : SignalledError :=
  m.arms.foldl arm_signal s

/-- The `SignalledError` value the per-body `check_match` returns to its
caller after visiting the body's match expressions. -/
def body_signalled_error (ms : List MatchExpr) : SignalledError :=
  ms.foldl match_signal .noErrorsSeen

/-- The `have_errors` flag of `check_match`: some arm pattern failed to
lower. -/
def have_errors (m : MatchExpr) : Bool := m.arms.any (fun a => a.lowerFails)

/-- The checks `check_match` performs on one match expression, in order. -/
inductive CheckEvent where
  | legalityCheck (armIndex : Nat)
  | guardMutation (armIndex : Nat)
  | reachabilityCheck
  | exhaustivenessCheck
  | emptyMatchCheck
deriving DecidableEq

/-- The per-arm checks of `check_match`'s first loop: the syntactic
legality checks always run; the guard-mutation check runs when the arm has
a guard and the `bind_by_move_pattern_guards` feature is off. -/
def arm_prelude_events (feature : Bool) (i : Nat) (a : MArm) :
    List CheckEvent :=
  [.legalityCheck i] ++
    (if a.hasGuard && !feature then [.guardMutation i] else [])

/-- The first loop of `check_match` over the arms, starting at index `i`. -/
def prelude_events_from (feature : Bool) (i : Nat) :
    List MArm → List CheckEvent
  | [] => []
  | a :: rest =>
    arm_prelude_events feature i a ++ prelude_events_from feature (i + 1) rest

/-- The control flow of `check_match` for one match expression: the per-arm
legality loop always runs; if some pattern failed to lower (`have_errors`),
the closure returns before `check_arms`, otherwise `check_arms` runs
(reachability) followed by either the zero-arm check or the exhaustiveness
check. -/
def check_match_events (feature : Bool) (m : MatchExpr) : List CheckEvent :=
  prelude_events_from feature 0 m.arms ++
    (if have_errors m then []
     else
       [.reachabilityCheck] ++
         (if m.arms.isEmpty then [.emptyMatchCheck]
          else [.exhaustivenessCheck]))

theorem str_append_assoc (a b c : String) : a ++ b ++ c = a ++ (b ++ c) :=
  String.append_assoc a b c

theorem armpats_foldl_eq (u : List LPat → LPat → Bool) (s : MatchSource)
    (i : Nat) (g : Bool) (pats : List ArmPat) (st : ArmsState) :
    pats.foldl (processPat u s i g) st
      = (pats.map (fun p => (⟨i, g, p⟩ : Entry))).foldl (processEntry u s) st := by
  induction pats generalizing st with
  | nil => rfl
  | cons p ps ih => simp [List.foldl_cons, ih, processEntry]

theorem check_arms_aux_eq (u : List LPat → LPat → Bool) (s : MatchSource)
    (arms : List Arm) : ∀ i st,
    check_arms_aux u s i st arms
      = (armEntriesFrom i arms).foldl (processEntry u s) st := by
  induction arms with
  | nil => intro i st; rfl
  | cons a rest ih =>
    intro i st
    rw [check_arms_aux, armEntriesFrom, List.foldl_append, ih, armpats_foldl_eq]

theorem check_arms_eq (u : List LPat → LPat → Bool) (s : MatchSource)
    (arms : List Arm) :
    check_arms u s arms
      = (armEntries arms).foldl (processEntry u s) initArmsState :=
  check_arms_aux_eq u s arms 0 initArmsState

theorem foldl_entries_seen (u : List LPat → LPat → Bool) (s : MatchSource)
    (es : List Entry) : ∀ st : ArmsState,
    ((es.foldl (processEntry u s) st).seen) = st.seen ++ guardFreeLow es := by
  induction es with
  | nil => intro st; simp [guardFreeLow]
  | cons e es ih =>
    intro st
    rw [List.foldl_cons, ih]
    cases hg : e.hasGuard <;>
      simp [processEntry, processPat, guardFreeLow, hg]

theorem foldl_entries_checks (u : List LPat → LPat → Bool) (s : MatchSource)
    (es : List Entry) : ∀ st : ArmsState,
    ((es.foldl (processEntry u s) st).checks)
      = st.checks ++ checksFrom st.seen es := by
  induction es with
  | nil => intro st; simp [checksFrom]
  | cons e es ih =>
    intro st
    rw [List.foldl_cons, ih]
    cases hg : e.hasGuard <;>
      simp [processEntry, processPat, checksFrom, hg]

theorem foldl_entries_catchall (u : List LPat → LPat → Bool) (s : MatchSource)
    (es : List Entry) : ∀ st : ArmsState,
    ((es.foldl (processEntry u s) st).catchall)
      = (match st.catchall with
         | some c => some c
         | none => firstCatchallSpan es) := by
  induction es with
  | nil => intro st; cases hc : st.catchall <;> simp [firstCatchallSpan, hc]
  | cons e es ih =>
    intro st
    rw [List.foldl_cons, ih]
    rcases hc : st.catchall with _ | c
    · cases hg : e.hasGuard
      · cases hcat : pat_is_catchall e.ap.hirPat <;>
          simp [processEntry, processPat, firstCatchallSpan, hg, hc, hcat]
      · simp [processEntry, processPat, firstCatchallSpan, hg, hc]
    · simp [processEntry, processPat, hc]

theorem checksFrom_length (seen : List LPat) (es : List Entry) :
    (checksFrom seen es).length = es.length := by
  induction es generalizing seen with
  | nil => rfl
  | cons e es ih => simp [checksFrom, ih]

theorem checksFrom_getElem (es : List Entry) : ∀ (seen : List LPat) (k : Nat),
    (checksFrom seen es)[k]?
      = (es[k]?).map (fun e => (seen ++ guardFreeLow (es.take k), e.ap.pat)) := by
  induction es with
  | nil => intro seen k; simp [checksFrom]
  | cons e es ih =>
    intro seen k
    cases k with
    | zero => simp [checksFrom, guardFreeLow]
    | succ k =>
      rw [checksFrom, List.getElem?_cons_succ, List.take_succ_cons, ih]
      cases hg : e.hasGuard <;>
        cases hek : es[k]? <;>
          simp [guardFreeLow, hg, hek, List.append_assoc]

theorem guardFreeLow_map_entry (i : Nat) (g : Bool) (pats : List ArmPat) :
    guardFreeLow (pats.map (fun p => (⟨i, g, p⟩ : Entry)))
      = if g then [] else pats.map (fun p => p.pat) := by
  induction pats with
  | nil => cases g <;> simp [guardFreeLow]
  | cons p ps ih => cases g <;> simp_all [guardFreeLow]

theorem guardFreeLow_append (l1 l2 : List Entry) :
    guardFreeLow (l1 ++ l2) = guardFreeLow l1 ++ guardFreeLow l2 := by
  simp [guardFreeLow, List.filter_append]

theorem matchMatrix_eq_guardFree (arms : List Arm) : ∀ i : Nat,
    matchMatrix arms = guardFreeLow (armEntriesFrom i arms) := by
  induction arms with
  | nil => intro i; rfl
  | cons a rest ih =>
    intro i
    rw [armEntriesFrom, guardFreeLow_append, guardFreeLow_map_entry, ← ih (i + 1)]
    cases hg : a.hasGuard <;>
      simp [matchMatrix, hg, List.filter_cons, List.map_append]

/-- Claim C1: for every match expression, a pattern belonging to a
guard-bearing arm is checked for reachability against the accumulated matrix
but is never appended to that matrix, and the matrix used for the final
exhaustiveness check consists exactly of the rows coming from guard-free
arms. Formally: the `k`-th usefulness query of `check_arms` pairs the `k`-th
arm pattern with exactly the guard-free patterns among the first `k`
patterns, the matrix `seen` at the end of `check_arms` is exactly the list
of guard-free arm patterns, and the matrix `check_match` builds for the
exhaustiveness check is that same list. -/
theorem C1_guard_rows_matrix (u : List LPat → LPat → Bool) (s : MatchSource)
    (arms : List Arm) (k : Nat) :
    (check_arms u s arms).seen = matchMatrix arms ∧
    matchMatrix arms = guardFreeLow (armEntries arms) ∧
    (check_arms u s arms).checks.length = (armEntries arms).length ∧
    (check_arms u s arms).checks[k]?
      = ((armEntries arms)[k]?).map
          (fun e => (guardFreeLow ((armEntries arms).take k), e.ap.pat)) := by
  have hmm := matchMatrix_eq_guardFree arms 0
  have hchecks : (check_arms u s arms).checks = checksFrom [] (armEntries arms) := by
    rw [check_arms_eq, foldl_entries_checks]; rfl
  refine ⟨?_, hmm, ?_, ?_⟩
  · rw [check_arms_eq, foldl_entries_seen, hmm]; rfl
  · rw [hchecks, checksFrom_length]
  · rw [hchecks, checksFrom_getElem]
    cases hek : (armEntries arms)[k]? <;> simp [hek]

/-- Claim C2: for every arm whose pattern is judged not useful, the emitted
diagnostic is selected by the match's syntactic origin: in a while-let
desugaring, arm index 0 yields "unreachable pattern" and arm index 1 yields
"irrefutable while-let pattern"; an if-let desugaring yields "irrefutable
if-let pattern"; await and try desugarings emit no diagnostic at all; plain
match and for-loop desugarings yield "unreachable pattern". -/
theorem C2_unreachable_diag_by_source (u : List LPat → LPat → Bool)
    (st : ArmsState) (ap : ArmPat) (g : Bool) (i : Nat)
    (h : u st.seen ap.pat = false) :
    (processPat u .whileLetDesugar 0 g st ap).diags
      = st.diags ++ [ArmDiag.unreachable ap.pat.span none] ∧
    (processPat u .whileLetDesugar 1 g st ap).diags
      = st.diags ++ [ArmDiag.irrefutableWhileLet ap.pat.span] ∧
    (processPat u .ifLetDesugar i g st ap).diags
      = st.diags ++ [ArmDiag.irrefutableIfLet ap.pat.span] ∧
    (processPat u .awaitDesugar i g st ap).diags = st.diags ∧
    (processPat u .tryDesugar i g st ap).diags = st.diags ∧
    (processPat u .normal i g st ap).diags
      = st.diags ++ [ArmDiag.unreachable ap.pat.span st.catchall] ∧
    (processPat u .forLoopDesugar i g st ap).diags
      = st.diags ++ [ArmDiag.unreachable ap.pat.span st.catchall] ∧
    ArmDiag.msg (ArmDiag.unreachable ap.pat.span none) = "unreachable pattern" ∧
    ArmDiag.msg (ArmDiag.unreachable ap.pat.span st.catchall)
      = "unreachable pattern" ∧
    ArmDiag.msg (ArmDiag.irrefutableWhileLet ap.pat.span)
      = "irrefutable while-let pattern" ∧
    ArmDiag.msg (ArmDiag.irrefutableIfLet ap.pat.span)
      = "irrefutable if-let pattern" := by
  refine ⟨?_, ?_, ?_, ?_, ?_, ?_, ?_, rfl, rfl, rfl, rfl⟩ <;>
    simp [processPat, unreachableDiag, h]

/-- Closed instance of `C2_unreachable_diag_by_source` at a concrete oracle,
state and arm pattern. -/
theorem C2_unreachable_diag_by_source_witness :
    (processPat (fun _ _ => false) .whileLetDesugar 0 false initArmsState
        ⟨⟨0, 7, .con 1⟩, .lit⟩).diags = [ArmDiag.unreachable 7 none] ∧
    (processPat (fun _ _ => false) .whileLetDesugar 1 false initArmsState
        ⟨⟨0, 7, .con 1⟩, .lit⟩).diags = [ArmDiag.irrefutableWhileLet 7] ∧
    (processPat (fun _ _ => false) .ifLetDesugar 0 false initArmsState
        ⟨⟨0, 7, .con 1⟩, .lit⟩).diags = [ArmDiag.irrefutableIfLet 7] ∧
    (processPat (fun _ _ => false) .awaitDesugar 0 false initArmsState
        ⟨⟨0, 7, .con 1⟩, .lit⟩).diags = [] ∧
    (processPat (fun _ _ => false) .tryDesugar 0 false initArmsState
        ⟨⟨0, 7, .con 1⟩, .lit⟩).diags = [] ∧
    (processPat (fun _ _ => false) .normal 0 false initArmsState
        ⟨⟨0, 7, .con 1⟩, .lit⟩).diags = [ArmDiag.unreachable 7 none] ∧
    (processPat (fun _ _ => false) .forLoopDesugar 0 false initArmsState
        ⟨⟨0, 7, .con 1⟩, .lit⟩).diags = [ArmDiag.unreachable 7 none] ∧
    ArmDiag.msg (ArmDiag.unreachable 7 none) = "unreachable pattern" ∧
    ArmDiag.msg (ArmDiag.unreachable 7 none) = "unreachable pattern" ∧
    ArmDiag.msg (ArmDiag.irrefutableWhileLet 7) = "irrefutable while-let pattern" ∧
    ArmDiag.msg (ArmDiag.irrefutableIfLet 7) = "irrefutable if-let pattern" :=
  C2_unreachable_diag_by_source (fun _ _ => false) initArmsState
    ⟨⟨0, 7, .con 1⟩, .lit⟩ false 0 rfl

/-- Claim C4 is refuted on the code: `pat_is_catchall` returns `false` for a
plain wildcard pattern `_`, whereas the claim's catch-all notion includes
wildcards. Consequently a plain match whose first (guard-free) arm is a
plain wildcard does not annotate a later unreachable arm with a
"matches any value" label, contrary to the claim. -/
theorem C4_counterexample :
    pat_is_catchall HirPat.wild = false ∧
    catchall_per_spec HirPat.wild = true ∧
    (check_arms (fun seen _ => seen.isEmpty) .normal
        [⟨[⟨⟨0, 10, .con 0⟩, .wild⟩], false⟩,
         ⟨[⟨⟨0, 20, .con 1⟩, .lit⟩], false⟩]).diags
      = [ArmDiag.unreachable 20 none] := by
  refine ⟨rfl, rfl, rfl⟩

/-- Claim C4 (amended): during arm checking, the span of the first-seen
guard-free catch-all pattern — where a catch-all is a wildcard binding, a
binding whose subpattern is a catch-all, a reference to a catch-all, or a
tuple of only catch-alls (but not a plain wildcard pattern) — is recorded,
and every arm pattern reported unreachable in a plain match or for-loop
desugaring while a catch-all span is recorded is annotated with a label
saying the recorded pattern matches any value. -/
theorem C4_catchall_tracking (u : List LPat → LPat → Bool) (s : MatchSource)
    (arms : List Arm) (st : ArmsState) (ap : ArmPat) (g : Bool) (i : Nat)
    (c : Nat) (hc : st.catchall = some c) (hu : u st.seen ap.pat = false) :
    (check_arms u s arms).catchall = firstCatchallSpan (armEntries arms) ∧
    (processPat u .normal i g st ap).diags
      = st.diags ++ [ArmDiag.unreachable ap.pat.span (some c)] ∧
    (processPat u .forLoopDesugar i g st ap).diags
      = st.diags ++ [ArmDiag.unreachable ap.pat.span (some c)] := by
  refine ⟨?_, ?_, ?_⟩
  · rw [check_arms_eq, foldl_entries_catchall]; rfl
  · simp [processPat, unreachableDiag, hu, hc]
  · simp [processPat, unreachableDiag, hu, hc]

/-- Closed instance of `C4_catchall_tracking` at a concrete oracle, state
and arm pattern. -/
theorem C4_catchall_tracking_witness :
    (check_arms (fun _ _ => false) .normal
        [⟨[⟨⟨0, 11, .con 0⟩, .binding none⟩], false⟩]).catchall
      = firstCatchallSpan (armEntries
          [⟨[⟨⟨0, 11, .con 0⟩, .binding none⟩], false⟩]) ∧
    (processPat (fun _ _ => false) .normal 1 false
        ⟨[], some 11, [], []⟩ ⟨⟨0, 20, .con 1⟩, .lit⟩).diags
      = [] ++ [ArmDiag.unreachable 20 (some 11)] ∧
    (processPat (fun _ _ => false) .forLoopDesugar 1 false
        ⟨[], some 11, [], []⟩ ⟨⟨0, 20, .con 1⟩, .lit⟩).diags
      = [] ++ [ArmDiag.unreachable 20 (some 11)] :=
  C4_catchall_tracking (fun _ _ => false) .normal
    [⟨[⟨⟨0, 11, .con 0⟩, .binding none⟩], false⟩]
    ⟨[], some 11, [], []⟩ ⟨⟨0, 20, .con 1⟩, .lit⟩ false 1 11 rfl rfl

/-- Claim C5: for every non-empty list of witnesses, the rendered
uncovered-patterns string shows all witnesses verbatim (backquoted,
comma- and `and`-joined) when there are at most 3, and shows exactly the
first 3 followed by the count of the remaining ones when there are 4 or
more. -/
theorem C5_joined_uncovered_patterns (a b c d : String) (rest : List String) :
    joined_uncovered_patterns [a] = "`" ++ a ++ "`" ∧
    joined_uncovered_patterns [a, b] = "`" ++ a ++ "` and `" ++ b ++ "`" ∧
    joined_uncovered_patterns [a, b, c] =
      "`" ++ a ++ "`, `" ++ b ++ "` and `" ++ c ++ "`" ∧
    joined_uncovered_patterns (a :: b :: c :: d :: rest) =
      "`" ++ a ++ "`, `" ++ b ++ "`, `" ++ c ++ "` and " ++
        toString (rest.length + 1) ++ " more" := by
  refine ⟨rfl, rfl, ?_, ?_⟩
  · show "`" ++ join_strings "`, `" [a, b] ++ "` and `" ++ c ++ "`" = _
    simp only [join_strings, str_append_assoc]
  · have hlen : (a :: b :: c :: d :: rest).length - 3 = rest.length + 1 := by
      simp [List.length_cons]
    show "`" ++ join_strings "`, `" [a, b, c] ++ "` and " ++
        toString ((a :: b :: c :: d :: rest).length - 3) ++ " more" = _
    rw [hlen]
    simp only [join_strings, str_append_assoc]

/-- Claim C3 is refuted on the code: under the `exhaustive_patterns` mode,
`missing_variants` is never collected, so a zero-arm match over an inhabited
single-variant enum (fewer than 4 variants) emits a diagnostic that does not
name the missing variant, contrary to the claim's "naming missing variants
when the type is an enum with fewer than 4 variants". -/
theorem C3_counterexample :
    check_empty_match true false (TySty.adt [⟨"A", 5⟩] false true)
      = some ⟨EmptyMsg.typeNonEmpty, []⟩ ∧
    EmptyMsg.typeNonEmpty ≠ EmptyMsg.patternNotHandled "A" :=
  ⟨rfl, by decide⟩

/-- Claim C3 (amended): for every match expression with zero arms, no
non-exhaustiveness diagnostic is emitted iff the scrutinee type is
uninhabited (the never type or an enum with no variants that is not a
non-local non-exhaustive enum; under the relaxed `exhaustive_patterns`
mode, any type proven uninhabited from the current module). Otherwise a
diagnostic is emitted; when `exhaustive_patterns` is off and the type is an
enum with 1 to 3 variants, the missing variants are named (one variant:
"pattern ... is not handled"; several: "multiple patterns ... are not
handled"; each variant labelled "variant not covered"); in every other case
— an enum with 4 or more variants, a non-enum scrutinee, an empty non-local
non-exhaustive enum, and every diagnostic under `exhaustive_patterns` — the
message says the type is non-empty and no variant is named. -/
theorem C3_empty_match_rules (ep uf : Bool) (sty : TySty) :
    ((check_empty_match ep uf sty).isNone ↔
      ((ep = true ∧ uf = true) ∨
       (ep = false ∧ (sty = TySty.never ∨
          ∃ nE loc, sty = TySty.adt [] nE loc ∧ (nE = false ∨ loc = true))))) ∧
    (∀ d v nE loc, ep = false → sty = TySty.adt [v] nE loc →
       check_empty_match ep uf sty = some d →
       d.msg = EmptyMsg.patternNotHandled v.name ∧
       d.variantLabels = [v.span]) ∧
    (∀ d variants nE loc, ep = false → sty = TySty.adt variants nE loc →
       2 ≤ variants.length → variants.length < 4 →
       check_empty_match ep uf sty = some d →
       d.msg = EmptyMsg.multipleNotHandled ∧
       d.variantLabels = variants.map (fun v => v.span)) ∧
    (∀ d variants nE loc, ep = false → sty = TySty.adt variants nE loc →
       4 ≤ variants.length →
       check_empty_match ep uf sty = some d →
       d.msg = EmptyMsg.typeNonEmpty ∧ d.variantLabels = []) ∧
    (∀ d, ep = false → sty = TySty.other →
       check_empty_match ep uf sty = some d →
       d.msg = EmptyMsg.typeNonEmpty ∧ d.variantLabels = []) ∧
    (∀ d nE loc, ep = false → sty = TySty.adt [] nE loc →
       check_empty_match ep uf sty = some d →
       d.msg = EmptyMsg.typeNonEmpty ∧ d.variantLabels = []) ∧
    (∀ d, ep = true → check_empty_match ep uf sty = some d →
       d.msg = EmptyMsg.typeNonEmpty ∧ d.variantLabels = []) := by
  refine ⟨?_, ?_, ?_, ?_, ?_, ?_, ?_⟩
  · cases ep
    · cases sty with
      | never => simp [check_empty_match, scrutineeIsUninhabited]
      | other => simp [check_empty_match, scrutineeIsUninhabited]
      | adt variants nE loc =>
        cases variants with
        | nil =>
          cases nE <;> cases loc <;>
            simp [check_empty_match, scrutineeIsUninhabited, missingVariants]
        | cons v vs =>
          cases nE <;> cases loc <;>
            simp [check_empty_match, scrutineeIsUninhabited, missingVariants]
    · cases uf <;> simp [check_empty_match, scrutineeIsUninhabited]
  · intro d v nE loc hep hsty h
    subst hep; subst hsty
    cases nE <;> cases loc <;>
      (simp [check_empty_match, scrutineeIsUninhabited, missingVariants] at h;
       simp [← h])
  · intro d variants nE loc hep hsty h2 h4 h
    subst hep; subst hsty
    match variants, h2 with
    | v1 :: v2 :: vs, _ =>
      have hcond : (v1 :: v2 :: vs).length < 4 ∧ (v1 :: v2 :: vs) ≠ [] :=
        ⟨h4, by simp⟩
      rw [check_empty_match] at h
      simp only [missingVariants, if_neg, Bool.false_eq_true, reduceIte,
        if_pos hcond] at h
      cases nE <;> cases loc <;>
        (simp [scrutineeIsUninhabited] at h; simp [← h])
  · intro d variants nE loc hep hsty h4 h
    subst hep; subst hsty
    have hcond : ¬((variants).length < 4 ∧ variants ≠ []) := by
      intro hx; exact absurd h4 (by omega)
    have hvne : variants ≠ [] := by
      intro hx; subst hx; simp at h4
    rw [check_empty_match] at h
    simp only [missingVariants, Bool.false_eq_true, reduceIte,
      if_neg hcond] at h
    cases nE <;> cases loc <;>
      (simp [scrutineeIsUninhabited, hvne] at h; simp [← h])
  · intro d hep hsty h
    subst hep; subst hsty
    simp [check_empty_match, scrutineeIsUninhabited, missingVariants] at h
    simp [← h]
  · intro d nE loc hep hsty h
    subst hep; subst hsty
    cases nE
    · simp [check_empty_match, scrutineeIsUninhabited] at h
    · cases loc
      · simp [check_empty_match, scrutineeIsUninhabited, missingVariants] at h
        simp [← h]
      · simp [check_empty_match, scrutineeIsUninhabited] at h
  · intro d hep h
    subst hep
    rw [check_empty_match] at h
    simp only [missingVariants, reduceIte] at h
    cases uf
    · simp [scrutineeIsUninhabited] at h; simp [← h]
    · simp [scrutineeIsUninhabited] at h

/-- Closed instance of `C3_empty_match_rules`: a zero-arm match over a
one-variant local enum (default mode) names that variant. -/
theorem C3_empty_match_rules_witness :
    (⟨EmptyMsg.patternNotHandled "A", [5]⟩ : EmptyMatchDiag).msg
        = EmptyMsg.patternNotHandled (VariantDef.mk "A" 5).name ∧
    (⟨EmptyMsg.patternNotHandled "A", [5]⟩ : EmptyMatchDiag).variantLabels
        = [(VariantDef.mk "A" 5).span] :=
  (C3_empty_match_rules false false (TySty.adt [⟨"A", 5⟩] false true)).2.1
    ⟨EmptyMsg.patternNotHandled "A", [5]⟩ ⟨"A", 5⟩ false true rfl rfl rfl

/-- Claim C6: for every irrefutability-check site, a refutable-pattern
error is emitted iff a wildcard candidate is useful against the one-row
matrix built from that pattern, and when the pattern is syntactically a
bare single-segment path with no arguments, the error's label says the
pattern is interpreted as a variant/constant pattern rather than a new
variable. -/
theorem C6_irrefutable_check (u : List LPat → LPat → Option (List LPat))
    (pat : HirPat) (lowered : LPat) :
    ((check_irrefutable u pat lowered).isSome
       ↔ (u [lowered] (wildPattern lowered.ty)).isSome) ∧
    (isBareSingleSegmentPath pat = true →
       ∀ l, check_irrefutable u pat lowered = some l →
         l = IrrefutLabel.interpretedAsVariantPattern) ∧
    (isBareSingleSegmentPath pat = false →
       ∀ l, check_irrefutable u pat lowered = some l →
         ∃ w, l = IrrefutLabel.patternNotCovered w) := by
  cases hu : u [lowered] (wildPattern lowered.ty) <;>
    cases hb : isBareSingleSegmentPath pat <;>
      simp [check_irrefutable, check_not_useful, hu, hb]

/-- Closed instance of `C6_irrefutable_check` at a concrete oracle and a
bare single-segment path pattern. -/
theorem C6_irrefutable_check_witness :
    ((check_irrefutable oracleSomeNil c6pat c6lowered).isSome
       ↔ (oracleSomeNil [c6lowered] (wildPattern c6lowered.ty)).isSome) ∧
    IrrefutLabel.interpretedAsVariantPattern
      = IrrefutLabel.interpretedAsVariantPattern :=
  ⟨(C6_irrefutable_check oracleSomeNil c6pat c6lowered).1,
   (C6_irrefutable_check oracleSomeNil c6pat c6lowered).2.1 rfl
     IrrefutLabel.interpretedAsVariantPattern rfl⟩

/-- Claim C10: if the exhaustiveness check finds the wildcard candidate
useful but the returned witness list is empty, the emitted non-exhaustive
diagnostic uses the wildcard pattern `_` of the scrutinee type itself as
the single reported uncovered pattern, so a non-exhaustive verdict never
produces a diagnostic with zero named patterns. -/
theorem C10_wild_witness_fallback (u : List LPat → LPat → Option (List LPat))
    (ty : Nat) (matrix : List LPat) :
    (u matrix (wildPattern ty) = some [] →
       check_exhaustive u ty matrix = some ⟨[wildPattern ty]⟩) ∧
    (∀ d, check_exhaustive u ty matrix = some d → d.witnesses ≠ []) := by
  constructor
  · intro h; simp [check_exhaustive, check_not_useful, h]
  · intro d hd
    cases hu : u matrix (wildPattern ty) with
    | none => simp [check_exhaustive, check_not_useful, hu] at hd
    | some ws =>
      simp only [check_exhaustive, check_not_useful, hu, Option.map_some',
        Option.some.injEq] at hd
      subst hd
      cases hws : ws.isEmpty
      · have hne : ws ≠ [] := by simpa using hws
        simpa [hws] using hne
      · simp [hws]

/-- Closed instance of `C10_wild_witness_fallback` at a concrete oracle
returning an empty witness list. -/
theorem C10_wild_witness_fallback_witness :
    check_exhaustive oracleSomeNil 3 [] = some ⟨[wildPattern 3]⟩ ∧
    (⟨[wildPattern 3]⟩ : ExhaustDiag).witnesses ≠ [] :=
  ⟨(C10_wild_witness_fallback oracleSomeNil 3 []).1 rfl,
   (C10_wild_witness_fallback oracleSomeNil 3 []).2 ⟨[wildPattern 3]⟩
     ((C10_wild_witness_fallback oracleSomeNil 3 []).1 rfl)⟩

theorem moveStep_foldl (f g : Bool) (r : Option Nat)
    (bs : List BindingInfo) : ∀ st : List MoveDiag × List Nat,
    bs.foldl (moveStep f g r) st
      = (st.1 ++ moveDiagsSpec f g bs,
         st.2 ++ (if g then []
                  else if r.isSome then offendingSpans bs else [])) := by
  induction bs with
  | nil =>
    intro st
    cases g <;> cases hr : r.isSome <;>
      simp [moveDiagsSpec, offendingSpans, hr]
  | cons b bs ih =>
    intro st
    rw [List.foldl_cons, ih]
    cases hbm : b.bm <;> cases hc : b.isCopy <;>
      cases hs : subContainsBindings b.sub <;> cases g <;> cases f <;>
        cases hr : r.isSome <;>
          simp [moveStep, moveDiagsSpec, offendingSpans, isByValue,
            hbm, hc, hs, hr, List.filter_cons]

theorem moveDiagsSpec_mem (f g : Bool) (bs : List BindingInfo)
    (d : MoveDiag) (hd : d ∈ moveDiagsSpec f g bs) :
    (∃ sp, d = MoveDiag.e0007 sp) ∨ (∃ sp, d = MoveDiag.e0008 sp) := by
  rw [moveDiagsSpec, List.mem_flatMap] at hd
  obtain ⟨b, _, hdb⟩ := hd
  cases hbm : b.bm <;> simp only [hbm] at hdb
  · by_cases hc : b.isCopy = true
    · simp [hc] at hdb
    · by_cases hs : subContainsBindings b.sub = true
      · simp [hc, hs] at hdb
        exact Or.inl ⟨b.span, hdb⟩
      · by_cases hg : g = true
        · by_cases hf : f = false
          · simp [hc, hs, hg, hf] at hdb
            exact Or.inr ⟨b.span, hdb⟩
          · simp [hc, hs, hg, hf] at hdb
        · simp [hc, hs, hg] at hdb
  · simp at hdb

theorem e0009_not_in_moveDiagsSpec (f g : Bool) (bs : List BindingInfo)
    (ms : List Nat) (rl : Option Nat) :
    MoveDiag.e0009 ms rl ∉ moveDiagsSpec f g bs := by
  intro hmem
  rcases moveDiagsSpec_mem f g bs _ hmem with ⟨sp, h⟩ | ⟨sp, h⟩ <;>
    simp at h

theorem e0007_in_moveDiagsSpec (f g : Bool) (bs : List BindingInfo)
    (b : BindingInfo) (hb : b ∈ bs) (hbm : b.bm = .byValue)
    (hc : b.isCopy = false) (hs : subContainsBindings b.sub = true) :
    MoveDiag.e0007 b.span ∈ moveDiagsSpec f g bs := by
  induction bs with
  | nil => simp at hb
  | cons x bs ih =>
    rcases List.mem_cons.mp hb with rfl | hb
    · rw [moveDiagsSpec, List.flatMap_cons]
      apply List.mem_append_left
      simp [hbm, hc, hs]
    · have hmem := ih hb
      rw [moveDiagsSpec] at hmem
      rw [moveDiagsSpec, List.flatMap_cons]
      exact List.mem_append_right _ hmem

theorem check_legality_unfold (f g : Bool) (pats : List TPat) :
    check_legality_of_move_bindings f g pats
      = moveDiagsSpec f g (pats.flatMap tpatBindings) ++
        (if (if g then []
             else if (by_ref_span pats).isSome
             then offendingSpans (pats.flatMap tpatBindings) else []).isEmpty
         then []
         else [MoveDiag.e0009
                (if g then []
                 else if (by_ref_span pats).isSome
                 then offendingSpans (pats.flatMap tpatBindings) else [])
                (by_ref_span pats)]) := by
  rw [check_legality_of_move_bindings]
  rw [moveStep_foldl]
  simp

/-- Claim C7 is refuted on the code: `by_ref_span` is a single mutable
`Option` that each by-ref binding overwrites, so the E0009 diagnostic's
by-ref label carries only the span of the last by-ref binding (span 2
below), not all collected by-ref spans (the by-ref binding at span 1 is
not reported). -/
theorem C7_counterexample :
    check_legality_of_move_bindings false false [c7pat]
      = [MoveDiag.e0009 [3] (some 2)] ∧
    tpatBindings c7pat
      = [⟨.byRef, 1, true, none⟩, ⟨.byRef, 2, true, none⟩,
         ⟨.byValue, 3, false, none⟩] ∧
    MoveDiag.e0009 [3] (some 1)
      ∉ check_legality_of_move_bindings false false [c7pat] :=
  ⟨rfl, rfl, by decide⟩

/-- Claim C7 (amended): for every pattern group passed to the move-binding
legality check without a guard, the move-and-ref-conflict diagnostic E0009
is emitted iff the group contains both at least one by-reference binding
and at least one by-value binding of a non-Copy type without sub-bindings,
and the diagnostic reports all offending by-move spans together with the
span of the last-traversed by-ref binding (a single label, not all by-ref
spans); a by-value binding of a non-Copy type whose sub-pattern contains
bindings is always reported illegal (E0007) regardless of by-ref bindings
and of the guard. -/
theorem C7_move_ref_conflict (feature hg : Bool) (pats : List TPat) :
    ((∃ ms rl, MoveDiag.e0009 ms rl
        ∈ check_legality_of_move_bindings feature false pats)
      ↔ ((by_ref_span pats).isSome = true ∧
         offendingSpans (pats.flatMap tpatBindings) ≠ [])) ∧
    (∀ ms rl, MoveDiag.e0009 ms rl
        ∈ check_legality_of_move_bindings feature false pats →
      ms = offendingSpans (pats.flatMap tpatBindings) ∧
      rl = by_ref_span pats) ∧
    (∀ b, b ∈ pats.flatMap tpatBindings → b.bm = .byValue →
      b.isCopy = false → subContainsBindings b.sub = true →
      MoveDiag.e0007 b.span
        ∈ check_legality_of_move_bindings feature hg pats) := by
  have hoffb : ∀ (h : offendingSpans (pats.flatMap tpatBindings) ≠ []),
      (offendingSpans (pats.flatMap tpatBindings)).isEmpty = false := by
    intro h
    cases h2 : offendingSpans (pats.flatMap tpatBindings) with
    | nil => exact absurd h2 h
    | cons a l => rfl
  refine ⟨?_, ?_, ?_⟩
  · rw [check_legality_unfold]
    simp only [Bool.false_eq_true, reduceIte]
    by_cases hr : (by_ref_span pats).isSome = true
    · rw [if_pos hr]
      by_cases hoff : offendingSpans (pats.flatMap tpatBindings) = []
      · rw [hoff]
        simp only [List.isEmpty_nil, reduceIte, List.append_nil]
        constructor
        · rintro ⟨ms, rl, hmem⟩
          exact absurd hmem (e0009_not_in_moveDiagsSpec _ _ _ _ _)
        · rintro ⟨-, h2⟩; exact absurd rfl h2
      · rw [hoffb hoff]
        simp only [Bool.false_eq_true, reduceIte]
        constructor
        · intro _
          exact ⟨hr, hoff⟩
        · intro _
          refine ⟨offendingSpans (pats.flatMap tpatBindings),
            by_ref_span pats, ?_⟩
          exact List.mem_append_right _ (List.mem_singleton.mpr rfl)
    · rw [if_neg hr]
      simp only [List.isEmpty_nil, reduceIte, List.append_nil]
      constructor
      · rintro ⟨ms, rl, hmem⟩
        exact absurd hmem (e0009_not_in_moveDiagsSpec _ _ _ _ _)
      · rintro ⟨h1, -⟩; exact absurd h1 hr
  · intro ms rl hmem
    rw [check_legality_unfold] at hmem
    simp only [Bool.false_eq_true, reduceIte] at hmem
    by_cases hr : (by_ref_span pats).isSome = true
    · rw [if_pos hr] at hmem
      by_cases hoff : offendingSpans (pats.flatMap tpatBindings) = []
      · rw [hoff] at hmem
        simp only [List.isEmpty_nil, reduceIte, List.append_nil] at hmem
        exact absurd hmem (e0009_not_in_moveDiagsSpec _ _ _ _ _)
      · rw [hoffb hoff] at hmem
        simp only [Bool.false_eq_true, reduceIte] at hmem
        rcases List.mem_append.mp hmem with hmem | hmem
        · exact absurd hmem (e0009_not_in_moveDiagsSpec _ _ _ _ _)
        · rw [List.mem_singleton] at hmem
          injection hmem with h1 h2
          exact ⟨h1, h2⟩
    · rw [if_neg hr] at hmem
      simp only [List.isEmpty_nil, reduceIte, List.append_nil] at hmem
      exact absurd hmem (e0009_not_in_moveDiagsSpec _ _ _ _ _)
  · intro b hb hbm hc hs
    rw [check_legality_unfold]
    exact List.mem_append_left _
      (e0007_in_moveDiagsSpec feature hg _ b hb hbm hc hs)

/-- Closed instance of `C7_move_ref_conflict` at the concrete pattern group
`c7pat`. -/
theorem C7_move_ref_conflict_witness :
    ((∃ ms rl, MoveDiag.e0009 ms rl
        ∈ check_legality_of_move_bindings false false [c7pat])
      ↔ ((by_ref_span [c7pat]).isSome = true ∧
         offendingSpans ([c7pat].flatMap tpatBindings) ≠ [])) ∧
    ([3] = offendingSpans ([c7pat].flatMap tpatBindings) ∧
      some 2 = by_ref_span [c7pat]) :=
  ⟨(C7_move_ref_conflict false false [c7pat]).1,
   (C7_move_ref_conflict false false [c7pat]).2.1 [3] (some 2) (by decide)⟩

theorem mutation_diag_e0301 (effects : List GuardEffect) (sp : Nat) :
    GuardDiag.e0301 sp ∈ check_for_mutation_in_guard effects
      ↔ GuardEffect.borrow sp BorrowKind.mutBorrow ∈ effects := by
  rw [check_for_mutation_in_guard]
  constructor
  · intro h
    obtain ⟨e, he, hde⟩ := List.mem_filterMap.mp h
    rcases e with ⟨s, kk⟩ | ⟨s, mm⟩ | s | s
    · cases kk
      · simp [mutation_effect_diag] at hde
        subst hde; exact he
      · simp [mutation_effect_diag] at hde
      · simp [mutation_effect_diag] at hde
    · cases mm <;> simp [mutation_effect_diag] at hde
    · simp [mutation_effect_diag] at hde
    · simp [mutation_effect_diag] at hde
  · intro h
    exact List.mem_filterMap.mpr ⟨_, h, rfl⟩

theorem mutation_diag_e0302 (effects : List GuardEffect) (sp : Nat) :
    GuardDiag.e0302 sp ∈ check_for_mutation_in_guard effects
      ↔ (GuardEffect.mutate sp MutateMode.justWrite ∈ effects ∨
         GuardEffect.mutate sp MutateMode.writeAndRead ∈ effects) := by
  rw [check_for_mutation_in_guard]
  constructor
  · intro h
    obtain ⟨e, he, hde⟩ := List.mem_filterMap.mp h
    rcases e with ⟨s, kk⟩ | ⟨s, mm⟩ | s | s
    · cases kk <;> simp [mutation_effect_diag] at hde
    · cases mm
      · simp [mutation_effect_diag] at hde
        subst hde; exact Or.inl he
      · simp [mutation_effect_diag] at hde
        subst hde; exact Or.inr he
      · simp [mutation_effect_diag] at hde
    · simp [mutation_effect_diag] at hde
    · simp [mutation_effect_diag] at hde
  · rintro (h | h)
    · exact List.mem_filterMap.mpr ⟨_, h, rfl⟩
    · exact List.mem_filterMap.mpr ⟨_, h, rfl⟩

/-- Claim C8: when the guard-mutation check walks a guard expression's
use-effects, an error is emitted for every mutable borrow (E0301) and for
every assignment or write-and-read mutation (E0302), and no error is
emitted for immutable borrows, unique-immutable borrows, or pure
initializations; the check runs only when the relaxed
`bind_by_move_pattern_guards` mode is disabled. -/
theorem C8_guard_mutation (fb : Bool) (effects : List GuardEffect) (sp : Nat)
    (k : BorrowKind) :
    (GuardDiag.e0301 sp ∈ check_for_mutation_in_guard effects
      ↔ GuardEffect.borrow sp BorrowKind.mutBorrow ∈ effects) ∧
    (GuardDiag.e0302 sp ∈ check_for_mutation_in_guard effects
      ↔ (GuardEffect.mutate sp MutateMode.justWrite ∈ effects ∨
         GuardEffect.mutate sp MutateMode.writeAndRead ∈ effects)) ∧
    (k = BorrowKind.immBorrow ∨ k = BorrowKind.uniqueImmBorrow →
      mutation_effect_diag (GuardEffect.borrow sp k) = none) ∧
    mutation_effect_diag (GuardEffect.mutate sp MutateMode.init) = none ∧
    guard_mutation_diags true (some effects) = [] ∧
    guard_mutation_diags false (some effects)
      = check_for_mutation_in_guard effects ∧
    guard_mutation_diags fb none = [] := by
  refine ⟨mutation_diag_e0301 effects sp, mutation_diag_e0302 effects sp,
    ?_, rfl, rfl, rfl, rfl⟩
  rintro (rfl | rfl) <;> rfl

/-- Closed instance of `C8_guard_mutation` at a concrete effect list. -/
theorem C8_guard_mutation_witness :
    (GuardDiag.e0301 4 ∈ check_for_mutation_in_guard
        [GuardEffect.borrow 4 BorrowKind.mutBorrow]
      ↔ GuardEffect.borrow 4 BorrowKind.mutBorrow
          ∈ [GuardEffect.borrow 4 BorrowKind.mutBorrow]) ∧
    mutation_effect_diag (GuardEffect.borrow 4 BorrowKind.immBorrow)
      = none ∧
    guard_mutation_diags true (some [GuardEffect.borrow 4 BorrowKind.mutBorrow])
      = [] :=
  ⟨(C8_guard_mutation true [GuardEffect.borrow 4 BorrowKind.mutBorrow] 4
      BorrowKind.immBorrow).1,
   (C8_guard_mutation true [GuardEffect.borrow 4 BorrowKind.mutBorrow] 4
      BorrowKind.immBorrow).2.2.1 (Or.inl rfl),
   (C8_guard_mutation true [GuardEffect.borrow 4 BorrowKind.mutBorrow] 4
      BorrowKind.immBorrow).2.2.2.2.1⟩

theorem prelude_no_engine_events (f : Bool) (arms : List MArm) : ∀ i : Nat,
    CheckEvent.reachabilityCheck ∉ prelude_events_from f i arms ∧
    CheckEvent.exhaustivenessCheck ∉ prelude_events_from f i arms := by
  induction arms with
  | nil => intro i; simp [prelude_events_from]
  | cons a rest ih =>
    intro i
    have h1 := (ih (i + 1)).1
    have h2 := (ih (i + 1)).2
    cases hg : a.hasGuard <;> cases f <;>
      simp [prelude_events_from, arm_prelude_events, hg, h1, h2]

theorem legality_in_prelude (f : Bool) (arms : List MArm) :
    ∀ (n i : Nat), i < arms.length →
    CheckEvent.legalityCheck (n + i) ∈ prelude_events_from f n arms := by
  induction arms with
  | nil => intro n i h; simp at h
  | cons a rest ih =>
    intro n i h
    cases i with
    | zero => simp [prelude_events_from, arm_prelude_events]
    | succ j =>
      have hj := ih (n + 1) j (by simpa using h)
      have heq : n + (j + 1) = (n + 1) + j := by omega
      rw [heq]
      simp [prelude_events_from, hj]

theorem arm_signal_foldl (arms : List MArm) : ∀ s : SignalledError,
    arms.foldl arm_signal s = SignalledError.sawSomeError
      ↔ (s = SignalledError.sawSomeError ∨
         ∃ a ∈ arms, a.hasGuard = true) := by
  induction arms with
  | nil => intro s; simp
  | cons a rest ih =>
    intro s
    rw [List.foldl_cons, ih]
    cases hg : a.hasGuard <;> cases s <;>
      simp [arm_signal, hg, or_assoc]

theorem match_signal_foldl (ms : List MatchExpr) : ∀ s : SignalledError,
    ms.foldl match_signal s = SignalledError.sawSomeError
      ↔ (s = SignalledError.sawSomeError ∨
         ∃ mm ∈ ms, ∃ a ∈ mm.arms, a.hasGuard = true) := by
  induction ms with
  | nil => intro s; simp
  | cons m rest ih =>
    intro s
    rw [List.foldl_cons, ih, show match_signal s m = m.arms.foldl arm_signal s
      from rfl, arm_signal_foldl]
    simp [or_assoc]

/-- Claim C9 is refuted on the code: the `signalled_error` flag is set when
some visited arm has a guard, not when pattern lowering fails. A body whose
single match has a lowering failure and no guard returns `NoErrorsSeen`,
while a body whose single match has a guard and no lowering failure returns
`SawSomeError`. -/
theorem C9_counterexample :
    body_signalled_error [⟨[⟨true, false⟩]⟩] = SignalledError.noErrorsSeen ∧
    have_errors ⟨[⟨true, false⟩]⟩ = true ∧
    body_signalled_error [⟨[⟨false, true⟩]⟩] = SignalledError.sawSomeError ∧
    have_errors ⟨[⟨false, true⟩]⟩ = false :=
  ⟨rfl, rfl, rfl, rfl⟩

/-- Claim C9 (amended): when lowering any arm pattern of a match fails,
reachability and exhaustiveness analysis for that match is skipped while
the syntactic legality checks on the arms still run; the signalled-error
flag returned by the per-body check is set exactly when some arm of some
visited match expression has a guard — not when pattern lowering fails. -/
theorem C9_skip_and_signal (feature : Bool) (m : MatchExpr)
    (ms : List MatchExpr) (i : Nat) :
    (have_errors m = true →
      CheckEvent.reachabilityCheck ∉ check_match_events feature m ∧
      CheckEvent.exhaustivenessCheck ∉ check_match_events feature m) ∧
    (i < m.arms.length →
      CheckEvent.legalityCheck i ∈ check_match_events feature m) ∧
    (body_signalled_error ms = SignalledError.sawSomeError
      ↔ ∃ mm ∈ ms, ∃ a ∈ mm.arms, a.hasGuard = true) := by
  refine ⟨?_, ?_, ?_⟩
  · intro herr
    have h1 := (prelude_no_engine_events feature m.arms 0).1
    have h2 := (prelude_no_engine_events feature m.arms 0).2
    simp [check_match_events, herr, h1, h2]
  · intro hi
    have := legality_in_prelude feature m.arms 0 i hi
    simp only [Nat.zero_add] at this
    simp [check_match_events, this]
  · rw [body_signalled_error, match_signal_foldl]
    simp

/-- Closed instance of `C9_skip_and_signal`: a match with a lowering
failure skips the engine but runs the legality check, and a guard-free body
with a failing arm leaves the flag unset. -/
theorem C9_skip_and_signal_witness :
    (CheckEvent.reachabilityCheck
        ∉ check_match_events false ⟨[⟨true, false⟩]⟩ ∧
     CheckEvent.exhaustivenessCheck
        ∉ check_match_events false ⟨[⟨true, false⟩]⟩) ∧
    CheckEvent.legalityCheck 0 ∈ check_match_events false ⟨[⟨true, false⟩]⟩ ∧
    (body_signalled_error [⟨[⟨true, false⟩]⟩] = SignalledError.sawSomeError
      ↔ ∃ mm ∈ [(⟨[⟨true, false⟩]⟩ : MatchExpr)], ∃ a ∈ mm.arms,
          a.hasGuard = true) :=
  ⟨(C9_skip_and_signal false ⟨[⟨true, false⟩]⟩ [⟨[⟨true, false⟩]⟩] 0).1 rfl,
   (C9_skip_and_signal false ⟨[⟨true, false⟩]⟩ [⟨[⟨true, false⟩]⟩] 0).2.1
     (by decide),
   (C9_skip_and_signal false ⟨[⟨true, false⟩]⟩ [⟨[⟨true, false⟩]⟩] 0).2.2⟩

end CheckMatch
